import Mathlib

/-!
Verification of the PPEditor "Param" binary codec (`src/data.py`,
`src/param/param.py`) against its natural-language specification.

The Python source is shallowly embedded: a Python `bytes` value is a
`List Nat` of byte values, fallible Python code (code that can raise an
exception) is embedded as `Except String _` where the error string names
the Python exception class, and Python `int` is `Nat`/`Int` as the
signedness of the source requires.
-/

namespace PPEditor

/-- A Python `bytes` value: a list of byte values `0 ≤ b < 256`. -/
abbrev Bytes := List Nat

/-- Value of a little-endian byte string as an unsigned integer
(the interpretation used by `struct.unpack` formats `I`, `H`, `B`). -/
def le_value : Bytes → Nat
  | [] => 0
  | b :: rest => b + 256 * le_value rest

/-- Little-endian byte string of width `w` for an unsigned value
(the interpretation used by `struct.pack` formats `I`, `H`, `B`). -/
def le_bytes : Nat → Nat → Bytes
  | 0, _ => []
  | w + 1, n => n % 256 :: le_bytes w (n / 256)

/-- Reinterpret a `w`-byte unsigned value as two's-complement signed
(the interpretation used by `struct.unpack` formats `i`, `h`, `b`). -/
def to_signed (w : Nat) (v : Nat) : Int :=
  if v < 2 ^ (8 * w - 1) then (v : Int) else (v : Int) - 2 ^ (8 * w)

/-- `data.read_byte_array(fdata, position, size)`: the Python slice
`fdata[position : position + size]` after clamping `size` to
`len(fdata) - position` when `position + size > len(fdata)`.
The clamped branch is the slice `fdata[position : len(fdata)]`, i.e. `drop`. -/
def read_byte_array (fdata : Bytes) (position size : Nat) : Bytes :=
  if fdata.length < position + size then fdata.drop position
  else (fdata.drop position).take size

/-- `struct.unpack` of one fixed-width unsigned value: raises `struct.error`
unless the buffer length equals the format width exactly. -/
def unpack_exact (w : Nat) (ba : Bytes) : Except String Nat :=
  if ba.length = w then .ok (le_value ba) else .error "struct.error"

/-- `data.read_uint(fdata, position)` = `unpack("I", read_byte_array(fdata, position, 4))[0]`. -/
def read_uint (fdata : Bytes) (position : Nat := 0) : Except String Nat :=
  unpack_exact 4 (read_byte_array fdata position 4)

/-- `data.read_ushort(fdata, position)` = `unpack("H", read_byte_array(fdata, position, 2))[0]`. -/
def read_ushort (fdata : Bytes) (position : Nat := 0) : Except String Nat :=
  unpack_exact 2 (read_byte_array fdata position 2)

/-- `data.read_uchar(fdata, position)` = `unpack("B", read_byte_array(fdata, position, 1))[0]`. -/
def read_uchar (fdata : Bytes) (position : Nat := 0) : Except String Nat :=
  unpack_exact 1 (read_byte_array fdata position 1)

/-- `data.read_int(fdata, position)` = `unpack("i", read_byte_array(fdata, position, 4))[0]`. -/
def read_int (fdata : Bytes) (position : Nat := 0) : Except String Int :=
  (to_signed 4) <$> unpack_exact 4 (read_byte_array fdata position 4)

/-- `data.read_short(fdata, position)` = `unpack("h", read_byte_array(fdata, position, 2))[0]`. -/
def read_short (fdata : Bytes) (position : Nat := 0) : Except String Int :=
  (to_signed 2) <$> unpack_exact 2 (read_byte_array fdata position 2)

/-- `data.read_char(fdata, position)` = `unpack("b", read_byte_array(fdata, position, 1))[0]`. -/
def read_char (fdata : Bytes) (position : Nat := 0) : Except String Int :=
  (to_signed 1) <$> unpack_exact 1 (read_byte_array fdata position 1)

/-- `data.read_bool(fdata, position)` evaluates
`read_byte_array(fdata, position, 1) & 1` — a Python `bytes` value `&` an
`int` — which raises `TypeError` unconditionally, before `unpack` runs. -/
def read_bool (fdata : Bytes) (position : Nat := 0) : Except String Bool :=
  .error "TypeError"

/-- `data.replace_byte_array(fdata, position, value)`: copies `fdata` to a
`bytearray` and assigns `fdata[position + i] = value[i]` for each `i`; the
first out-of-range index raises `IndexError` (an empty `value` writes
nothing and always succeeds). -/
def replace_byte_array (fdata : Bytes) (position : Nat) (value : Bytes) :
    Except String Bytes :=
  if value.length = 0 then .ok fdata
  else if position + value.length ≤ fdata.length then
    .ok (fdata.take position ++ value ++ fdata.drop (position + value.length))
  else .error "IndexError"

/-- UTF-8 encoding of one Unicode scalar value (Python `str.encode("utf-8")`
per code point). -/
def utf8EncodeChar (c : Nat) : Bytes :=
  if c < 0x80 then [c]
  else if c < 0x800 then
    [0xC0 + c / 64, 0x80 + c % 64]
  else if c < 0x10000 then
    [0xE0 + c / 4096, 0x80 + (c / 64) % 64, 0x80 + c % 64]
  else
    [0xF0 + c / 262144, 0x80 + (c / 4096) % 64, 0x80 + (c / 64) % 64,
     0x80 + c % 64]

/-- UTF-8 encoding of a Python `str` (Python `str.encode("utf-8")`). -/
def utf8Encode (s : String) : Bytes :=
  s.data.foldl (fun acc c => acc ++ utf8EncodeChar c.toNat) []

/-- A byte in the UTF-8 continuation range `0x80..0xBF`. -/
def utf8Cont (b : Nat) : Bool := 0x80 ≤ b && b < 0xC0

/-- Strict UTF-8 decoding (Python `bytes.decode()`): `none` models
`UnicodeDecodeError` (stray continuation bytes, overlong forms, surrogate
code points, values above `0x10FFFF`, and truncated sequences all fail). -/
def utf8DecodeList : Bytes → Option (List Char)
  | [] => some []
  | b :: rest =>
    if b < 0x80 then
      (utf8DecodeList rest).map (Char.ofNat b :: ·)
    else if b < 0xC2 then none
    else if b < 0xE0 then
      match rest with
      | c1 :: rest2 =>
        if utf8Cont c1 then
          (utf8DecodeList rest2).map
            (Char.ofNat ((b - 0xC0) * 64 + (c1 - 0x80)) :: ·)
        else none
      | [] => none
    else if b < 0xF0 then
      match rest with
      | c1 :: c2 :: rest2 =>
        if utf8Cont c1 && utf8Cont c2 &&
            (decide (0xE1 ≤ b) || decide (0xA0 ≤ c1)) &&
            (decide (b ≠ 0xED) || decide (c1 < 0xA0)) then
          (utf8DecodeList rest2).map
            (Char.ofNat ((b - 0xE0) * 4096 + (c1 - 0x80) * 64 + (c2 - 0x80)) :: ·)
        else none
      | _ => none
    else if b < 0xF5 then
      match rest with
      | c1 :: c2 :: c3 :: rest2 =>
        if utf8Cont c1 && utf8Cont c2 && utf8Cont c3 &&
            (decide (0xF1 ≤ b) || decide (0x90 ≤ c1)) &&
            (decide (b ≠ 0xF4) || decide (c1 < 0x90)) then
          (utf8DecodeList rest2).map
            (Char.ofNat ((b - 0xF0) * 262144 + (c1 - 0x80) * 4096 +
              (c2 - 0x80) * 64 + (c3 - 0x80)) :: ·)
        else none
      | _ => none
    else none

/-- The `.decode()` step of `data.read_str`: build a Python `str` from the
collected bytes, or raise `UnicodeDecodeError`. (The `unpack(f"len s", ...)`
step in the source is the identity on the collected byte string.) -/
def decode_result (bs : Bytes) : Except String String :=
  match utf8DecodeList bs with
  | some cs => .ok (String.mk cs)
  | none => .error "UnicodeDecodeError"

/-- The collection loop of `data.read_str`, expressed on the suffix
`fdata[position:]`: the source repeatedly calls
`read_uchar(fdata, position + offset)`, which raises `struct.error` once
the offset passes the end of the buffer (the clamped 1-byte slice becomes
empty), appends each nonzero byte and stops at the first zero byte.
`cstr_collect_step` below proves this definition equal to that loop. -/
def cstr_collect : Bytes → Except String Bytes
  | [] => .error "struct.error"
  | b :: rest =>
    if b = 0 then .ok [] else (cstr_collect rest).map (b :: ·)

/-- `data.read_str(fdata, position)`: collect bytes until a zero byte,
then decode as UTF-8. -/
def read_str (fdata : Bytes) (position : Nat := 0) : Except String String := do
  let bs ← cstr_collect (fdata.drop position)
  decode_result bs

/-- `data.string_to_bytearray(string, required_size)`: UTF-8 encode and,
when `required_size` is truthy (not `None` and nonzero), append
`required_size - len(ba)` zero bytes — a Python negative repetition count
yields the empty bytes, so a long string is returned unchanged. -/
def string_to_bytearray (string : String) (required_size : Option Nat) : Bytes :=
  let ba := utf8Encode string
  match required_size with
  | some n => if n ≠ 0 then ba ++ List.replicate (n - ba.length) 0 else ba
  | none => ba

/-- Modelled from the spec: `const.PARAM_HEADER` (file `const.py` is not
under `src/`). The spec describes it as a fixed 8-byte magic constant; the
concrete byte values are immaterial to every claim, which depend only on
equality with this constant. -/
def PARAM_HEADER : Bytes := [0x50, 0x41, 0x52, 0x41, 0x4D, 0x00, 0x00, 0x00]

/-- Modelled from the spec: `settings.settings.SettingsEntry` (the settings
module is not under `src/`). One field descriptor of the schema:
`type` is the primitive type tag, `address` the byte offset within an
entry, `size` the byte size. The codec also reads `.position` in
`Entry.to_bytes`; it is modelled as a separate field. -/
structure SettingsEntry where
  type : String
  address : Nat
  size : Nat
  position : Nat
deriving DecidableEq, Repr

/-- Modelled from the spec: `settings.settings.Settings` (not under `src/`),
reduced to the one method the codec calls: `get_entries_in_param(id, section)`
returns the ordered field-descriptor list for that record kind and section. -/
structure Settings where
  get_entries_in_param : Nat → Nat → List SettingsEntry

/-- A decoded Python value held in `Field.value`: `int` for all numeric
types, `bool`, `str`, or `None` for unrecognized type tags. -/
inductive PyValue where
  | int (i : Int)
  | bool (b : Bool)
  | str (s : String)
  | none
deriving DecidableEq, Repr

/-- `Field.process_value(data)`: dispatch on `self.settings.type`. The
source maps `"ushort"` to `read_short` and `"uchar"` to `read_char` — the
signed readers — although `data.py` defines (unused) `read_ushort` and
`read_uchar`; and `read_bool` raises `TypeError` (see `read_bool`).
Unrecognized type tags return `None`. -/
def process_value (st : SettingsEntry) (data : Bytes) : Except String PyValue :=
  let t := st.type
  if t = "uint" then (fun n => PyValue.int (Int.ofNat n)) <$> read_uint data 0
  else if t = "int" then PyValue.int <$> read_int data 0
  else if t = "short" then PyValue.int <$> read_short data 0
  else if t = "ushort" then PyValue.int <$> read_short data 0
  else if t = "char" then PyValue.int <$> read_char data 0
  else if t = "uchar" then PyValue.int <$> read_char data 0
  else if t = "bool" then PyValue.bool <$> read_bool data 0
  else if t = "str" then PyValue.str <$> read_str data 0
  else .ok PyValue.none

/-- `param.Field`: one decoded value, its descriptor and backing bytes. -/
structure Field where
  id : Nat
  settings : SettingsEntry
  raw_data : Bytes
  value : PyValue
deriving DecidableEq, Repr

/-- `Field.__init__(id, settings, data)`: stores the arguments and decodes
`value` via `process_value`; a raising `process_value` propagates out of the
constructor. -/
def Field.init (id : Nat) (st : SettingsEntry) (data : Bytes) :
    Except String Field :=
  (fun v => { id := id, settings := st, raw_data := data, value := v }) <$>
    process_value st data

/-- `Field.set_value(new_value)`: replaces `value`, leaving `raw_data`. -/
def Field.set_value (f : Field) (new_value : PyValue) : Field :=
  { f with value := new_value }

/-- The comparison `type == "..."` as written in `Field.to_bytes`: `type`
there is Python's builtin `type` function (the local binding made inside
`process_value` is not in scope in `to_bytes`), and the builtin compares
unequal to every string, so every branch guard is `False`. -/
def builtin_type_eq (s : String) : Bool := false

/-- `struct.pack` of one fixed-width signed value (formats `i`, `h`, `b`):
raises `struct.error` when the argument is not an int in range. -/
def pack_signed (w : Nat) (v : PyValue) : Except String Bytes :=
  match v with
  | .int i =>
    if -(2 ^ (8 * w - 1) : Int) ≤ i ∧ i < 2 ^ (8 * w - 1) then
      .ok (le_bytes w (i % (2 ^ (8 * w) : Int)).toNat)
    else .error "struct.error"
  | _ => .error "struct.error"

/-- `struct.pack` of one fixed-width unsigned value (formats `I`, `H`, `B`):
raises `struct.error` when the argument is not an int in range. -/
def pack_unsigned (w : Nat) (v : PyValue) : Except String Bytes :=
  match v with
  | .int i =>
    if 0 ≤ i ∧ i < (2 ^ (8 * w) : Int) then .ok (le_bytes w i.toNat)
    else .error "struct.error"
  | _ => .error "struct.error"

/-- `struct.pack("c", v)`: requires a 1-byte `bytes` argument; a `Field`
value is never `bytes`, so this raises `struct.error`. -/
def pack_char_fmt (v : PyValue) : Except String Bytes := .error "struct.error"

/-- `struct.pack("C", v)`: `C` is not a valid `struct` format character, so
this raises `struct.error` unconditionally. -/
def pack_bad_fmt (v : PyValue) : Except String Bytes := .error "struct.error"

/-- `Field.to_bytes()`: the source tests `type == "uint"`, `type == "int"`,
… where `type` is the Python builtin (see `builtin_type_eq`), so no branch
ever fires and the function falls off the end, returning `None`. The
branch bodies (with the source's inverted pack formats: `"uint"` packed
with signed `"i"`, `"int"` with unsigned `"I"`, `"ushort"` with signed
`"h"`, `"short"` with unsigned `"H"`, `"char"` with invalid `"C"`) are kept
to mirror the source, though all are dead code. -/
def Field.to_bytes (f : Field) : Except String (Option Bytes) :=
  if builtin_type_eq "uint" then (some ·) <$> pack_signed 4 f.value
  else if builtin_type_eq "int" then (some ·) <$> pack_unsigned 4 f.value
  else if builtin_type_eq "ushort" then (some ·) <$> pack_signed 2 f.value
  else if builtin_type_eq "short" then (some ·) <$> pack_unsigned 2 f.value
  else if builtin_type_eq "uchar" then (some ·) <$> pack_char_fmt f.value
  else if builtin_type_eq "char" then (some ·) <$> pack_bad_fmt f.value
  else if builtin_type_eq "str" then
    (some ·) <$> .ok (string_to_bytearray
      (match f.value with | .str s => s | _ => "") (some f.settings.size))
  else .ok none

/-- `param.Entry`: one fixed-size record. -/
structure Entry where
  id : Nat
  settings : List SettingsEntry
  raw_data : Bytes
  fields : List Field
deriving DecidableEq, Repr

/-- The loop of `Entry.process_data(data)`: for each descriptor, slice
`read_byte_array(data, setting.address, setting.size)` and construct a
`Field` whose id is `self.settings.index(setting)` (the index of the first
`==`-equal descriptor in the list). -/
def Entry.build_fields (settings : List SettingsEntry) (data : Bytes) :
    Except String (List Field) :=
  settings.foldlM
    (fun acc st =>
      (fun f => acc ++ [f]) <$>
        Field.init (settings.indexOf st) st (read_byte_array data st.address st.size))
    []

/-- `Entry.__init__(id, settings, data)`. -/
def Entry.init (id : Nat) (settings : List SettingsEntry) (data : Bytes) :
    Except String Entry :=
  (fun fs => { id := id, settings := settings, raw_data := data, fields := fs }) <$>
    Entry.build_fields settings data

/-- One iteration of the `Entry.to_bytes` loop as the source writes it:
`replace_byte_array(raw_data, field.settings.position, field.to_bytes)` —
the third argument is the bound method object `field.to_bytes`, not a call
(the parentheses are missing), and `replace_byte_array` evaluates
`len(value)` on it, raising `TypeError`. -/
def replace_byte_array_method (fdata : Bytes) (position : Nat) :
    Except String Bytes :=
  .error "TypeError"

/-- `Entry.to_bytes()`: folds the (always-raising, see
`replace_byte_array_method`) patch step over the fields, starting from
`raw_data`; an entry with no fields returns `raw_data` unchanged. -/
def Entry.to_bytes (e : Entry) : Except String Bytes :=
  e.fields.foldlM
    (fun raw f => replace_byte_array_method raw f.settings.position)
    e.raw_data

/-- Mutate field `i` of an entry via `Field.set_value` (the Python caller
mutates the field object held in `entry.fields[i]` in place). -/
def Entry.set_field_value (e : Entry) (i : Nat) (v : PyValue) : Entry :=
  match e.fields[i]? with
  | some f => { e with fields := e.fields.set i (f.set_value v) }
  | none => e

/-- `param.Section`: a run of entries with one stride and one schema. -/
structure Section where
  id : Nat
  settings : List SettingsEntry
  entry_size : Nat
  entry_amount : Nat
  raw_data : Bytes
  entry_list : List Entry
deriving DecidableEq, Repr

/-- `Section.__init__`: stores the scalars and runs `process_data`, which
slices `read_byte_array(data, index * entry_size, entry_size)` for each
`index in range(entry_amount)` and constructs an `Entry` from each. -/
def Section.init (id : Nat) (settings : List SettingsEntry)
    (entry_size entry_amount : Nat) (data : Bytes) : Except String Section := do
  let entries ← (List.range entry_amount).mapM (fun index =>
    Entry.init index settings (read_byte_array data (index * entry_size) entry_size))
  .ok { id := id, settings := settings, entry_size := entry_size,
        entry_amount := entry_amount, raw_data := data, entry_list := entries }

/-- `Section.to_bytes()`: concatenation of each entry's `to_bytes()`. -/
def Section.to_bytes (s : Section) : Except String Bytes :=
  s.entry_list.foldlM (fun acc e => (acc ++ ·) <$> e.to_bytes) []

/-- `param.Param`: the top-level file model. Header attributes are `Option`
because `set_default_values` assigns them Python `None`; `settings` is
`Option` because the constructor's default is `None`. `raw_data` only
exists after `process_data` has run, hence also `Option`. -/
structure Param where
  settings : Option Settings
  ptr : Option Nat
  unk : Option Bytes
  sections : Option Nat
  unk2 : Option Bytes
  id : Option Nat
  section_list : List Section
  entry_list : List Nat
  is_modified : Bool
  raw_data : Option Bytes

/-- `Param.set_default_values()`: resets the header values to `None`, the
section and entry lists to empty and the modified flag to `False`; it does
not touch `settings` or `raw_data`. -/
def Param.set_default_values (p : Param) : Param :=
  { p with ptr := none, unk := none, sections := none, unk2 := none,
           id := none, section_list := [], entry_list := [],
           is_modified := false }

/-- A `Param` as it stands right after `__init__` has run
`set_default_values` and before (or instead of) any loading: the spec's
`Empty` state. -/
def Param.empty (settings : Option Settings) : Param :=
  { settings := settings, ptr := none, unk := none, sections := none,
    unk2 := none, id := none, section_list := [], entry_list := [],
    is_modified := false, raw_data := none }

/-- `Param.process_header(data)`: reads the five header values at their
fixed offsets (`0x8` ptr u32, `0xC` 4 opaque bytes, `0x10` section count
u32, `0x14` 8 opaque bytes, `0x18` record-kind id u32). -/
def Param.process_header (p : Param) (data : Bytes) : Except String Param := do
  let ptr ← read_uint data 0x8
  let unk := read_byte_array data 0xC 0x4
  let sections ← read_uint data 0x10
  let unk2 := read_byte_array data 0x14 0x8
  let id ← read_uint data 0x18
  .ok { p with ptr := some ptr, unk := some unk, sections := some sections,
               unk2 := some unk2, id := some id }

/-- The loop of `Param.process_data`: `sec` is the running section number
(the loop variable `section`), `section_index` the directory cursor
(starting at `0x20`, advancing by 8), `data_index` the payload cursor
(starting at `self.ptr`, advancing by `len(raw_data)` — the length of the
possibly clamped slice), `remaining` the iterations left. The body looks
up the schema (`self.settings.get_entries_in_param` raises
`AttributeError` when `settings` is `None`), reads the directory pair,
slices the payload and constructs a `Section`. -/
def Param.process_sections (settings : Option Settings) (id : Nat)
    (data : Bytes) :
    Nat → Nat → Nat → Nat → Except String (List Section)
  | _, _, _, 0 => .ok []
  | sec, section_index, data_index, remaining + 1 => do
    let section_settings ←
      match settings with
      | some st => Except.ok (st.get_entries_in_param id sec)
      | none => Except.error "AttributeError"
    let section_entries ← read_uint data section_index
    let section_size ← read_uint data (section_index + 0x4)
    let raw_data := read_byte_array data data_index (section_entries * section_size)
    let s ← Section.init sec section_settings section_size section_entries raw_data
    let rest ← Param.process_sections settings id data (sec + 1)
      (section_index + 0x8) (data_index + raw_data.length) remaining
    .ok (s :: rest)

/-- `Param.process_data(data)`: stores `raw_data`, then runs the section
loop with `section_index = 0x20` and `data_index = self.ptr`, appending
the decoded sections to `section_list`. Arithmetic on a `None` header
value (`range(self.sections)` or `data_index = self.ptr`) would raise
`TypeError`; in the source `process_data` only runs after
`process_header`, which always leaves these set. -/
def Param.process_data (p : Param) (data : Bytes) : Except String Param := do
  match p.sections, p.ptr, p.id with
  | some sections, some ptr, some id => do
    let secs ← Param.process_sections p.settings id data 0 0x20 ptr sections
    .ok { p with raw_data := some data, section_list := p.section_list ++ secs }
  | _, _, _ => .error "TypeError"

/-- `Param.__init__(data, settings)`: stores `settings`, runs
`set_default_values`, returns early (leaving the `Empty` state) when
`data` is empty or its first 8 bytes differ from `PARAM_HEADER`, otherwise
loads header and section data. (The source also guards `data == None`,
which has no counterpart for a Lean `Bytes` argument.) -/
def Param.init (data : Bytes) (settings : Option Settings) :
    Except String Param :=
  let p := (Param.empty settings).set_default_values
  if data = [] ∨ read_byte_array data 0x0 0x8 ≠ PARAM_HEADER then .ok p
  else do
    let p ← p.process_header data
    p.process_data data

/-- `Param.load_from_data(data)`: validates first and returns (leaving the
object untouched) on empty data or a wrong magic; only then resets to
defaults and reloads. -/
def Param.load_from_data (p : Param) (data : Bytes) : Except String Param :=
  if data = [] ∨ read_byte_array data 0x0 0x8 ≠ PARAM_HEADER then .ok p
  else do
    let p' := p.set_default_values
    let p' ← p'.process_header data
    p'.process_data data

/-- One argument of a `struct.pack` call, as the Python value category
`pack` sees: an int, a `bytes` object, or `None`. -/
inductive PackArg where
  | int (n : Nat)
  | bytes (b : Bytes)
  | pynone
deriving DecidableEq, Repr

/-- `struct.pack` with a format of `count` copies of `"I"`: raises
`struct.error` when the number of arguments differs from `count`, and for
each argument raises unless it is an int in u32 range. -/
def pack_uints (count : Nat) (args : List PackArg) : Except String Bytes :=
  if args.length ≠ count then .error "struct.error"
  else args.foldlM
    (fun acc a =>
      match a with
      | .int n => if n < 2 ^ 32 then .ok (acc ++ le_bytes 4 n)
                  else .error "struct.error"
      | _ => .error "struct.error")
    []

/-- View an optional header scalar as a `pack` argument. -/
def packArgOfNat : Option Nat → PackArg
  | some n => .int n
  | none => .pynone

/-- View an optional opaque header byte range as a `pack` argument. -/
def packArgOfBytes : Option Bytes → PackArg
  | some b => .bytes b
  | none => .pynone

/-- `Param.to_bytes()`, as the source writes it: after the magic, the call
`pack("IIII", self.ptr, self.unk, self.sections)` supplies three arguments
to a four-value format — raising `struct.error` (and `self.unk` is a
4-byte `bytes`, not an int, besides). The remainder (append `unk2`, pack
the id, pack each directory pair and concatenate section payloads) is kept
faithfully but is unreachable. -/
def Param.to_bytes (p : Param) : Except String Bytes := do
  let file := PARAM_HEADER
  let hdr ← pack_uints 4
    [packArgOfNat p.ptr, packArgOfBytes p.unk, packArgOfNat p.sections]
  let file := file ++ hdr
  let file ← match p.unk2 with
    | some b => Except.ok (file ++ b)
    | none => Except.error "TypeError"
  let idPart ← pack_uints 1 [packArgOfNat p.id]
  let file := file ++ idPart
  let (dirs, section_data) ← p.section_list.foldlM
    (fun acc s => do
      let pair ← pack_uints 2 [.int s.entry_amount, .int s.entry_size]
      let payload ← s.to_bytes
      .ok (acc.1 ++ pair, acc.2 ++ payload))
    (([] : Bytes), ([] : Bytes))
  .ok (file ++ dirs ++ section_data)

/-! ### Concrete demonstration data -/

/-- A one-field schema entry: an unsigned 32-bit value at offset 0. -/
def uintSetting : SettingsEntry :=
  { type := "uint", address := 0, size := 4, position := 0 }

/-- A schema giving every section the single `uintSetting` descriptor. -/
def demoSettings : Settings := ⟨fun _ _ => [uintSetting]⟩

/-- A well-formed 48-byte Param file: magic, `data_pointer = 0x28`,
one section, record-kind id 7, directory pair `(entry_count = 2,
entry_size = 4)`, then the 8-byte payload of two records. -/
def demoData : Bytes :=
  PARAM_HEADER ++ le_bytes 4 0x28 ++ [0, 0, 0, 0] ++ le_bytes 4 1 ++
    List.replicate 8 0 ++ le_bytes 4 7 ++
    le_bytes 4 2 ++ le_bytes 4 4 ++
    [1, 0, 0, 0, 2, 0, 0, 0]

/-- The `Param` obtained by decoding `demoData` (the decode succeeds, so
the fallback arm is never taken). -/
def demoLoaded : Param :=
  match Param.init demoData (some demoSettings) with
  | .ok p => p
  | .error _ => Param.empty none

/-- Partial sums of `entry_count * entry_size` over the directory entries
`sec, sec+1, …`: the distance the payload cursor has advanced after
consuming `k` sections starting from section `sec`. -/
def stride_sum (cnt size : Nat → Nat) (sec : Nat) : Nat → Nat
  | 0 => 0
  | k + 1 => stride_sum cnt size sec k + cnt (sec + k) * size (sec + k)

/-! ### Theorems -/

/-- C1: the claim says `Param.to_bytes()` on an unmutated decoded `Param`
returns the original buffer byte-for-byte. The code instead raises
`struct.error`: `pack("IIII", self.ptr, self.unk, self.sections)` supplies
three arguments to a four-value format (and `self.unk` is a 4-byte `bytes`
where an int is expected). Evaluated here on `demoData`, which decodes to
a valid one-section `Param`. -/
theorem c1_param_to_bytes_raises :
    ((Param.init demoData (some demoSettings)).bind Param.to_bytes) =
      .error "struct.error" ∧
    (Param.init demoData (some demoSettings)).map
      (fun p => p.section_list.length) = .ok 1 :=
  ⟨rfl, rfl⟩

/-- C2: the claim says `Entry.to_bytes()` with no field mutations returns
the entry's original `raw_bytes`. The code instead raises `TypeError` for
every entry with at least one field: the loop passes the bound method
object `field.to_bytes` (the call parentheses are missing) to
`replace_byte_array`, which takes `len()` of it. Evaluated on an entry
decoded from `[1, 2, 3, 4]` with one `uint` descriptor. -/
theorem c2_entry_to_bytes_raises :
    ((Entry.init 0 [uintSetting] [1, 2, 3, 4]).bind Entry.to_bytes) =
      .error "TypeError" ∧
    (Entry.init 0 [uintSetting] [1, 2, 3, 4]).map Entry.raw_data =
      .ok [1, 2, 3, 4] :=
  ⟨rfl, rfl⟩

/-- C4: the claim says mutating one field via `set_value` and re-encoding
changes only that field's byte range. The code never produces any bytes:
re-encoding raises `TypeError` (same missing-call bug as in C2) before a
single byte is emitted. Evaluated on the C2 entry with field 0 set to 9. -/
theorem c4_mutated_entry_raises :
    (((Entry.init 0 [uintSetting] [1, 2, 3, 4]).map
        (fun e => e.set_field_value 0 (.int 9))).bind Entry.to_bytes) =
      .error "TypeError" :=
  rfl

/-- C5: the claim says unsigned types read unsigned, bool reads a boolean,
and only unknown tags give null. The code raises `TypeError` for `"bool"`
(`read_bool` computes `bytes & 1`), and reads `"ushort"`/`"uchar"` with
the signed readers `read_short`/`read_char` (so `FF FF` decodes to `-1`,
not `65535`), although `data.py` defines unused `read_ushort`/`read_uchar`. -/
theorem c5_process_value_eval :
    process_value { type := "bool", address := 0, size := 1, position := 0 }
      [1] = .error "TypeError" ∧
    process_value { type := "ushort", address := 0, size := 2, position := 0 }
      [255, 255] = .ok (.int (-1)) ∧
    process_value { type := "uchar", address := 0, size := 1, position := 0 }
      [255] = .ok (.int (-1)) :=
  ⟨rfl, rfl, rfl⟩

/-- C6: the claim says `Field.to_bytes()` on a string field returns exactly
`descriptor.byte_size` bytes, padded or truncated. The code returns `None`
(every branch compares Python's builtin `type` function to a string, so no
branch fires), and the underlying `string_to_bytearray` pads short strings
but never truncates long ones (`"abcdef"` at size 4 stays 6 bytes). -/
theorem c6_str_field_eval :
    ((Field.init 0 { type := "str", address := 0, size := 4, position := 0 }
        [97, 98, 0, 0]).bind Field.to_bytes) = .ok none ∧
    string_to_bytearray "abcdef" (some 4) = [97, 98, 99, 100, 101, 102] ∧
    string_to_bytearray "ab" (some 4) = [97, 98, 0, 0] :=
  ⟨rfl, rfl, rfl⟩

/-- C7: a read whose `offset + width` passes the end of the buffer is
clamped to the remaining bytes (down to zero of them), and unpacking the
short range as a fixed-width value is an error (shown generically via
`unpack_exact` and for the u32 reader `read_uint`). -/
theorem c7_clamped_read (fdata : Bytes) (position size : Nat)
    (h : fdata.length < position + size) :
    read_byte_array fdata position size = fdata.drop position ∧
    (read_byte_array fdata position size).length = fdata.length - position ∧
    (0 < size →
      unpack_exact size (read_byte_array fdata position size) =
        .error "struct.error") ∧
    (fdata.length < position + 4 →
      read_uint fdata position = .error "struct.error") := by
  have h1 : read_byte_array fdata position size = fdata.drop position := by
    unfold read_byte_array
    rw [if_pos h]
  refine ⟨h1, ?_, ?_, ?_⟩
  · rw [h1, List.length_drop]
  · intro hs
    unfold unpack_exact
    rw [h1, List.length_drop, if_neg (by omega)]
  · intro h4
    unfold read_uint unpack_exact read_byte_array
    rw [if_pos h4, List.length_drop, if_neg (by omega)]

/-- Witness for C7 at `fdata = [1, 2, 3]`, `position = 2`, `size = 4`. -/
theorem c7_clamped_read_witness :
    read_byte_array [1, 2, 3] 2 4 = [3] ∧
    (read_byte_array [1, 2, 3] 2 4).length = 1 ∧
    read_uint [1, 2, 3] 2 = .error "struct.error" := by
  have h := c7_clamped_read [1, 2, 3] 2 4 (by decide)
  exact ⟨h.1, h.2.1, h.2.2.2 (by decide)⟩

/-- C10: `load_from_data` validates before touching any state, so a
rejected input (empty buffer or wrong magic) returns with the `Param` —
header values, section list, everything — exactly as it was. -/
theorem c10_load_invalid_noop (p : Param) (data : Bytes)
    (h : data = [] ∨ read_byte_array data 0x0 0x8 ≠ PARAM_HEADER) :
    Param.load_from_data p data = .ok p := by
  unfold Param.load_from_data
  rw [if_pos h]

/-- Witness for C10: a `Param` loaded from `demoData` (one section) is
returned unchanged by `load_from_data` on a wrong-magic buffer. -/
theorem c10_load_invalid_noop_witness :
    Param.load_from_data demoLoaded [12, 34] = .ok demoLoaded ∧
    demoLoaded.section_list.length = 1 :=
  ⟨c10_load_invalid_noop demoLoaded [12, 34] (Or.inr (by decide)), rfl⟩

/-- C3 counterexample: the claim says every rejecting decode invocation —
construction or `load_from_data` — leaves the `Param` in the `Empty`
state. But `load_from_data` on a `Param` already loaded from `demoData`
keeps the previous tree when handed the empty buffer: the result still has
one section, not an empty section list. -/
theorem c3_counterexample :
    ((Param.init demoData (some demoSettings)).bind
        (fun p => p.load_from_data [])).map
      (fun p => p.section_list.length) = .ok 1 :=
  rfl

/-- C3 amended: construction on an empty buffer or wrong magic yields the
`Empty` state, and `load_from_data` on rejected input leaves the `Param`
unchanged — hence in the `Empty` state exactly when it already was there
(shown for the freshly constructed `Param.empty`). -/
theorem c3_amended_gate (data : Bytes) (settings : Option Settings)
    (h : data = [] ∨ read_byte_array data 0x0 0x8 ≠ PARAM_HEADER) :
    Param.init data settings = .ok (Param.empty settings) ∧
    Param.load_from_data (Param.empty settings) data =
      .ok (Param.empty settings) := by
  constructor
  · unfold Param.init
    rw [if_pos h]
    rfl
  · unfold Param.load_from_data
    rw [if_pos h]

/-- Witness for C3 (amended) at the empty buffer with no schema. -/
theorem c3_amended_gate_witness :
    Param.init [] none = .ok (Param.empty none) ∧
    Param.load_from_data (Param.empty none) [] = .ok (Param.empty none) :=
  c3_amended_gate [] none (Or.inl rfl)

/-- Faithfulness of `cstr_collect` to the source's loop: one step of
`cstr_collect` on the suffix `fdata[position:]` is exactly one iteration
of `read_str`'s `while` loop — a `read_uchar(fdata, position + offset)`
(raising `struct.error` past the end of the buffer), a zero test, and the
append. -/
theorem cstr_collect_step (fdata : Bytes) (position : Nat) :
    cstr_collect (fdata.drop position) =
      match read_uchar fdata position with
      | .error _ => .error "struct.error"
      | .ok b =>
        if b = 0 then .ok []
        else (cstr_collect (fdata.drop (position + 1))).map (b :: ·) := by
  rcases Nat.lt_or_ge position fdata.length with hp | hp
  · have hdrop : fdata.drop position = fdata[position] :: fdata.drop (position + 1) :=
      List.drop_eq_getElem_cons hp
    have hrba : read_byte_array fdata position 1 = [fdata[position]] := by
      unfold read_byte_array
      rw [if_neg (by omega), hdrop]
      rfl
    have huchar : read_uchar fdata position = .ok fdata[position] := by
      unfold read_uchar unpack_exact
      rw [hrba]
      simp [le_value]
    rw [huchar, hdrop]
    rfl
  · have hdrop : fdata.drop position = [] := List.drop_eq_nil_of_le hp
    have hrba : read_byte_array fdata position 1 = [] := by
      unfold read_byte_array
      rw [if_pos (by omega), hdrop]
    have huchar : read_uchar fdata position = .error "struct.error" := by
      unfold read_uchar unpack_exact
      rw [hrba]
      rfl
    rw [huchar, hdrop]
    rfl

/-- The collection loop returns the bytes before the first zero byte when
one exists, and raises `struct.error` (running off the end of the buffer)
when none does. -/
theorem cstr_collect_eq (l : Bytes) :
    cstr_collect l =
      if l.any (· = 0) then .ok (l.takeWhile (· ≠ 0))
      else .error "struct.error" := by
  induction l with
  | nil => rfl
  | cons b rest ih =>
    by_cases hb : b = 0
    · subst hb
      simp [cstr_collect]
    · rw [show cstr_collect (b :: rest) = (cstr_collect rest).map (b :: ·) by
        simp [cstr_collect, hb]]
      rw [ih]
      cases h : rest.any (· = 0) with
      | false => simp [List.any_cons, h, hb, Except.map]
      | true => simp [List.any_cons, h, hb, Except.map]

/-- C8 (amended): `read_str` returns the bytes from `position` up to but
excluding the first zero byte, decoded as UTF-8 (`decode_result` fails
with `UnicodeDecodeError` exactly when they are not valid UTF-8); when no
zero byte occurs at or after `position` it raises `struct.error` — from
`read_uchar` unpacking an empty clamped slice at the end of the buffer —
rather than stopping. -/
theorem c8_read_str_spec (fdata : Bytes) (position : Nat) :
    read_str fdata position =
      if (fdata.drop position).any (· = 0) then
        decode_result ((fdata.drop position).takeWhile (· ≠ 0))
      else .error "struct.error" := by
  unfold read_str
  rw [cstr_collect_eq]
  cases h : (fdata.drop position).any (· = 0) with
  | false => rfl
  | true => rfl

/-- C8 counterexample: the claim says `read_str` stops at the end of the
buffer when no zero byte occurs, here returning `"ab"`; the code raises
`struct.error` instead. -/
theorem c8_counterexample :
    read_str [97, 98] 0 = .error "struct.error" ∧
    read_str [97, 98] 0 ≠ .ok "ab" := by
  constructor
  · rfl
  · intro hcontra
    have h1 : read_str [97, 98] 0 = .error "struct.error" := rfl
    rw [h1] at hcontra
    exact Except.noConfusion hcontra

/-- Summing one more section on the left. -/
theorem stride_sum_succ_left (cnt size : Nat → Nat) (sec : Nat) :
    ∀ k, stride_sum cnt size sec (k + 1) =
      cnt sec * size sec + stride_sum cnt size (sec + 1) k := by
  intro k
  induction k with
  | zero => simp [stride_sum]
  | succ j ih =>
    rw [show stride_sum cnt size sec (j + 1 + 1) =
        stride_sum cnt size sec (j + 1) +
          cnt (sec + (j + 1)) * size (sec + (j + 1)) from rfl]
    rw [ih]
    rw [show stride_sum cnt size (sec + 1) (j + 1) =
        stride_sum cnt size (sec + 1) j +
          cnt (sec + 1 + j) * size (sec + 1 + j) from rfl]
    rw [show sec + (j + 1) = sec + 1 + j from by ring]
    ring

/-- A successful `Section.init` stores its arguments unchanged: the raw
payload slice, the entry count and the entry stride. -/
theorem Section.init_proj {id : Nat} {settings : List SettingsEntry}
    {entry_size entry_amount : Nat} {data : Bytes} {s : Section}
    (h : Section.init id settings entry_size entry_amount data = .ok s) :
    s.raw_data = data ∧ s.entry_amount = entry_amount ∧
      s.entry_size = entry_size := by
  unfold Section.init at h
  cases hm : (List.range entry_amount).mapM
      (fun index => Entry.init index settings
        (read_byte_array data (index * entry_size) entry_size)) with
  | error e =>
    rw [hm] at h
    exact Except.noConfusion h
  | ok entries =>
    rw [hm] at h
    cases h
    exact ⟨rfl, rfl, rfl⟩

/-- Invariant of the `process_data` loop: starting at section number `sec`
with the directory cursor at `0x20 + 8 * sec` and the payload cursor at
`data_index`, if every remaining directory pair reads back `(cnt i, size i)`
and every remaining payload slice lies inside the buffer, then the loop
yields one `Section` per remaining directory entry, whose raw payload is
the slice of length `cnt i * size i` starting `stride_sum` bytes past
`data_index`. -/
theorem process_sections_spec (st : Settings) (id : Nat) (data : Bytes)
    (cnt size : Nat → Nat) :
    ∀ (remaining sec data_index : Nat) (secs : List Section),
      (∀ i, i < remaining →
        read_uint data (0x20 + 8 * (sec + i)) = .ok (cnt (sec + i)) ∧
        read_uint data (0x20 + 8 * (sec + i) + 0x4) = .ok (size (sec + i))) →
      (∀ i, i < remaining →
        data_index + stride_sum cnt size sec i +
          cnt (sec + i) * size (sec + i) ≤ data.length) →
      Param.process_sections (some st) id data sec (0x20 + 8 * sec)
        data_index remaining = .ok secs →
      secs.length = remaining ∧
      ∀ k, (hk : k < remaining) → ∃ hk' : k < secs.length,
        (secs.get ⟨k, hk'⟩).raw_data =
          (data.drop (data_index + stride_sum cnt size sec k)).take
            (cnt (sec + k) * size (sec + k)) ∧
        (secs.get ⟨k, hk'⟩).entry_amount = cnt (sec + k) ∧
        (secs.get ⟨k, hk'⟩).entry_size = size (sec + k) := by
  intro remaining
  induction remaining with
  | zero =>
    intro sec data_index secs _ _ hrun
    have hsecs : secs = [] := by
      simpa [Param.process_sections] using hrun.symm
    subst hsecs
    exact ⟨rfl, fun k hk => absurd hk (by omega)⟩
  | succ r ih =>
    intro sec data_index secs hdir hbound hrun
    have e1 : read_uint data (0x20 + 8 * sec) = .ok (cnt sec) := by
      simpa using (hdir 0 (by omega)).1
    have e2 : read_uint data (0x20 + 8 * sec + 0x4) = .ok (size sec) := by
      simpa using (hdir 0 (by omega)).2
    have hlen : data_index + cnt sec * size sec ≤ data.length := by
      simpa [stride_sum] using hbound 0 (by omega)
    have hraw : read_byte_array data data_index (cnt sec * size sec) =
        (data.drop data_index).take (cnt sec * size sec) := by
      unfold read_byte_array
      rw [if_neg (by omega)]
    have hrawlen :
        (read_byte_array data data_index (cnt sec * size sec)).length =
          cnt sec * size sec := by
      rw [hraw, List.length_take, List.length_drop]
      omega
    rw [show Param.process_sections (some st) id data sec (0x20 + 8 * sec)
          data_index (r + 1) =
        (read_uint data (0x20 + 8 * sec)).bind (fun section_entries =>
          (read_uint data (0x20 + 8 * sec + 0x4)).bind (fun section_size =>
            (Section.init sec (st.get_entries_in_param id sec) section_size
                section_entries
                (read_byte_array data data_index
                  (section_entries * section_size))).bind (fun s =>
              (Param.process_sections (some st) id data (sec + 1)
                  (0x20 + 8 * sec + 0x8)
                  (data_index +
                    (read_byte_array data data_index
                      (section_entries * section_size)).length) r).bind
                (fun rest => .ok (s :: rest)))))
        from rfl] at hrun
    rw [e1, e2] at hrun
    simp only [Except.bind] at hrun
    cases hsec : Section.init sec (st.get_entries_in_param id sec) (size sec)
        (cnt sec) (read_byte_array data data_index (cnt sec * size sec)) with
    | error e =>
      rw [hsec] at hrun
      exact Except.noConfusion hrun
    | ok s =>
      rw [hsec] at hrun
      simp only [Except.bind] at hrun
      obtain ⟨hsraw, hscnt, hssize⟩ := Section.init_proj hsec
      cases hrest : Param.process_sections (some st) id data (sec + 1)
          (0x20 + 8 * sec + 0x8)
          (data_index +
            (read_byte_array data data_index (cnt sec * size sec)).length)
          r with
      | error e =>
        rw [hrest] at hrun
        exact Except.noConfusion hrun
      | ok rest =>
        rw [hrest] at hrun
        cases hrun
        rw [show (0x20 : Nat) + 8 * sec + 0x8 = 0x20 + 8 * (sec + 1) from
          by ring, hrawlen] at hrest
        have hdir' : ∀ i, i < r →
            read_uint data (0x20 + 8 * (sec + 1 + i)) =
              .ok (cnt (sec + 1 + i)) ∧
            read_uint data (0x20 + 8 * (sec + 1 + i) + 0x4) =
              .ok (size (sec + 1 + i)) := by
          intro i hi
          have hd := hdir (i + 1) (by omega)
          simpa [show sec + (i + 1) = sec + 1 + i from by ring] using hd
        have hbound' : ∀ i, i < r →
            data_index + cnt sec * size sec +
              stride_sum cnt size (sec + 1) i +
              cnt (sec + 1 + i) * size (sec + 1 + i) ≤ data.length := by
          intro i hi
          have hb := hbound (i + 1) (by omega)
          rw [stride_sum_succ_left] at hb
          simp only [show sec + (i + 1) = sec + 1 + i from by ring] at hb
          omega
        obtain ⟨hlenr, hspec⟩ :=
          ih (sec + 1) (data_index + cnt sec * size sec) rest hdir' hbound'
            hrest
        refine ⟨by simp [hlenr], ?_⟩
        intro k hk
        cases k with
        | zero =>
          refine ⟨by simp, ?_⟩
          rw [show ((s :: rest).get ⟨0, by simp⟩) = s from rfl]
          rw [show stride_sum cnt size sec 0 = 0 from rfl]
          simp only [Nat.add_zero]
          exact ⟨by rw [hsraw, hraw], hscnt, hssize⟩
        | succ j =>
          obtain ⟨hj, hjraw, hjcnt, hjsize⟩ := hspec j (by omega)
          refine ⟨by simp; omega, ?_⟩
          rw [show ((s :: rest).get ⟨j + 1, by simp; omega⟩) =
            rest.get ⟨j, hj⟩ from rfl]
          rw [stride_sum_succ_left,
            show sec + (j + 1) = sec + 1 + j from by ring,
            show data_index + (cnt sec * size sec +
                stride_sum cnt size (sec + 1) j) =
              data_index + cnt sec * size sec +
                stride_sum cnt size (sec + 1) j from by ring]
          exact ⟨hjraw, hjcnt, hjsize⟩

/-- C9: for a valid decode (magic accepted, header and directory reads in
bounds, every payload slice inside the buffer), directory entry `i` is
read at `0x20 + 8 * i` as `entry_count` (u32) then `entry_size` (u32) at
`+4`, and section `i`'s raw payload is the slice of `cnt i * size i` bytes
starting at `data_pointer + Σ_j<i (cnt j * size j)` — the running cursor
that starts at the header's `data_pointer` and advances by
`entry_count * entry_size` per section consumed. -/
theorem c9_directory_cursor (data : Bytes) (st : Settings) (p : Param)
    (cnt size : Nat → Nat) (ptr n : Nat)
    (hmagic : ¬(data = [] ∨ read_byte_array data 0x0 0x8 ≠ PARAM_HEADER))
    (hptr : read_uint data 0x8 = .ok ptr)
    (hn : read_uint data 0x10 = .ok n)
    (hinit : Param.init data (some st) = .ok p)
    (hdir : ∀ i, i < n →
      read_uint data (0x20 + 8 * i) = .ok (cnt i) ∧
      read_uint data (0x20 + 8 * i + 0x4) = .ok (size i))
    (hbound : ∀ i, i < n →
      ptr + stride_sum cnt size 0 i + cnt i * size i ≤ data.length) :
    p.section_list.length = n ∧
    ∀ i, (hi : i < n) → ∃ hi' : i < p.section_list.length,
      (p.section_list.get ⟨i, hi'⟩).raw_data =
        (data.drop (ptr + stride_sum cnt size 0 i)).take (cnt i * size i) ∧
      (p.section_list.get ⟨i, hi'⟩).entry_amount = cnt i ∧
      (p.section_list.get ⟨i, hi'⟩).entry_size = size i := by
  unfold Param.init at hinit
  rw [if_neg hmagic] at hinit
  unfold Param.process_header at hinit
  cases hid : read_uint data 0x18 with
  | error e =>
    rw [hptr, hn, hid] at hinit
    simp only [bind, Except.bind] at hinit
    exact Except.noConfusion hinit
  | ok idv =>
    rw [hptr, hn, hid] at hinit
    simp only [bind, Except.bind] at hinit
    unfold Param.process_data at hinit
    simp only [Param.set_default_values, Param.empty] at hinit
    cases hloop : Param.process_sections (some st) idv data 0 0x20 ptr n with
    | error e =>
      rw [hloop] at hinit
      exact Except.noConfusion hinit
    | ok secs =>
      rw [hloop] at hinit
      simp only [bind, Except.bind] at hinit
      cases hinit
      have hdir0 : ∀ i, i < n →
          read_uint data (0x20 + 8 * (0 + i)) = .ok (cnt (0 + i)) ∧
          read_uint data (0x20 + 8 * (0 + i) + 0x4) = .ok (size (0 + i)) := by
        intro i hi
        simpa using hdir i hi
      have hbound0 : ∀ i, i < n →
          ptr + stride_sum cnt size 0 i + cnt (0 + i) * size (0 + i) ≤
            data.length := by
        intro i hi
        simpa using hbound i hi
      obtain ⟨hlen, hspec⟩ :=
        process_sections_spec st idv data cnt size n 0 ptr secs hdir0 hbound0
          hloop
      refine ⟨by simpa using hlen, ?_⟩
      intro i hi
      obtain ⟨hi', hraw, hcnt, hsize⟩ := hspec i hi
      refine ⟨by simpa using hi', ?_⟩
      refine ⟨by simpa using hraw, by simpa using hcnt, by simpa using hsize⟩

/-- Witness for C9 on `demoData`: one section, directory pair `(2, 4)`,
payload slice of 8 bytes starting at `data_pointer = 0x28`. -/
theorem c9_directory_cursor_witness :
    demoLoaded.section_list.length = 1 ∧
    demoLoaded.section_list.map Section.raw_data = [[1, 0, 0, 0, 2, 0, 0, 0]] ∧
    demoLoaded.section_list.map Section.entry_amount = [2] ∧
    demoLoaded.section_list.map Section.entry_size = [4] := by
  have h := c9_directory_cursor demoData demoSettings demoLoaded
    (fun _ => 2) (fun _ => 4) 0x28 1
    (by decide) rfl rfl rfl
    (fun i hi => by
      have h0 : i = 0 := by omega
      subst h0
      exact ⟨rfl, rfl⟩)
    (fun i hi => by
      have h0 : i = 0 := by omega
      subst h0
      decide)
  exact ⟨h.1, rfl, rfl, rfl⟩

end PPEditor
